import Mathlib

/-!
Verification of the unified recipe-extraction pipeline.

Shallow embedding of:
- src/agent/tools/unified_extraction.py (platform predicates, content router
  `_extract_content`, combined judgment step `_validate_and_format_combined`,
  recursive controller `_extract_recursive`, entry point
  `extract_and_process_recipe`);
- src/agent/tools/models.py (the pydantic data contracts);
- src/agent/utils/retry.py (`with_retry`).

External effects (the network fetch performed by the platform extractors, the
structured-output language-model call, `uuid.uuid4()` and
`datetime.utcnow()`) are supplied by an environment `ExtractionEnv`; every
claim quantifies over all environments.  Python `float` confidences are
modelled as `Rat`; fractional constants are written in reduced `Rat.mk'` form
so that all definitions evaluate by kernel reduction.

Python identifiers beginning with an underscore drop it here
(`_extract_content` becomes `extract_content`, and so on); the pydantic field
`partial_recipe_data` is rendered as `part_recipe_data`.
-/

/-! ### String helpers (substring containment, used to state error-text claims) -/

/-- `starts_with pat l` is true when `pat` is an initial segment of `l`. -/
def starts_with : List Char → List Char → Bool
  | [], _ => true
  | _ :: _, [] => false
  | a :: as, b :: bs => a == b && starts_with as bs

/-- `contains_list pat l` is true when `pat` occurs contiguously inside `l`
(Python's `pat in l`). -/
def contains_list (pat : List Char) : List Char → Bool
  | [] => pat.isEmpty
  | c :: rest => starts_with pat (c :: rest) || contains_list pat rest

/-- Substring test on strings, Python's `pat in s`. -/
def containsSub (pat s : String) : Bool :=
  contains_list pat.data s.data

/-- Python truthiness of an `Optional[str]`: `None` and `""` are falsy. -/
def opt_truthy : Option String → Bool
  | none => false
  | some s => !s.isEmpty

/-! ### Timestamp well-formedness

`RecipeJSON.created_at` is produced by `datetime.utcnow().isoformat() + "Z"`
(src/agent/tools/models.py line 175).  `well_formed_iso` decides the shape of
such a string: `YYYY-MM-DDTHH:MM:SS`, an optional fractional-second part, and
the trailing `Z`.  This is the spec-side reading of "a well-formed creation
timestamp"; the standard-library generator itself is outside the repository,
so the claims assume the environment's clock output satisfies it. -/

/-- Digits followed by a final `'Z'` (at least the `'Z'`). -/
def digits_then_z : List Char → Bool
  | ['Z'] => true
  | c :: rest => c.isDigit && digits_then_z rest
  | [] => false

/-- After the seconds field: either `"Z"` directly, or `'.'`, at least one
digit, then `'Z'`. -/
def iso_tail : List Char → Bool
  | ['Z'] => true
  | '.' :: c :: rest => c.isDigit && digits_then_z rest
  | _ => false

/-- Modelled from the spec: a well-formed ISO-8601 UTC timestamp string as
produced by `datetime.utcnow().isoformat() + "Z"`. -/
def well_formed_iso (s : String) : Bool :=
  match s.data with
  | y1 :: y2 :: y3 :: y4 :: '-' :: m1 :: m2 :: '-' :: d1 :: d2 :: 'T' ::
      h1 :: h2 :: ':' :: n1 :: n2 :: ':' :: s1 :: s2 :: rest =>
    y1.isDigit && y2.isDigit && y3.isDigit && y4.isDigit &&
    m1.isDigit && m2.isDigit && d1.isDigit && d2.isDigit &&
    h1.isDigit && h2.isDigit && n1.isDigit && n2.isDigit &&
    s1.isDigit && s2.isDigit && iso_tail rest
  | _ => false

/-! ### Data model (src/agent/tools/models.py) -/

/-- `RecipeJSON.difficulty` literal values (models.py lines 196-199). -/
inductive Difficulty where
  | easy
  | medium
  | hard
deriving DecidableEq

/-- `RecipeIngredient` (models.py lines 130-150); `quantity` is
`Union[float, str]`. -/
structure RecipeIngredient where
  name : String
  quantity : Sum Rat String
  unit : String
deriving DecidableEq

/-- `RecipeDataForLLM` (models.py lines 289-339): recipe fields as produced by
the oracle, before `id` / `created_at` / `source_url` are attached. -/
structure RecipeDataForLLM where
  title : String
  ingredients : List RecipeIngredient
  steps : List String
  tags : List String
  servings : Option Nat
  prep_time : Option String
  cook_time : Option String
  total_time : Option String
  difficulty : Option Difficulty
  cuisine : Option String
  additional_info : Option (List String)
deriving DecidableEq

/-- `RecipeJSON` (models.py lines 153-211): the persisted recipe record.
`id` and `created_at` come from the environment's id generator and clock
(source defaults `uuid.uuid4()` and `datetime.utcnow().isoformat() + "Z"`). -/
structure RecipeJSON where
  id : String
  title : String
  ingredients : List RecipeIngredient
  steps : List String
  tags : List String
  created_at : String
  servings : Option Nat
  prep_time : Option String
  cook_time : Option String
  total_time : Option String
  difficulty : Option Difficulty
  cuisine : Option String
  source_url : Option String
  additional_info : Option (List String)
deriving DecidableEq

/-- `ValidateAndFormatOutput` (models.py lines 342-419): the structured
response of the judgment oracle.  `part_recipe_data` renders the source field
`partial_recipe_data`. -/
structure ValidateAndFormatOutput where
  is_valid_recipe : Bool
  recipe_data : Option RecipeDataForLLM
  part_recipe_data : Option RecipeDataForLLM
  recipe_name : Option String
  has_ingredients : Bool
  has_instructions : Bool
  follow_up_url : Option String
  follow_up_confidence : Rat
  reason : String
  confidence : Rat
deriving DecidableEq

/-- `UnifiedRecipeResult` (models.py lines 422-512): the pipeline's terminal
output.  `recipe_json` holds the structured record (the source stores its
`model_dump()` dict); `part_recipe_data` renders the source field
`partial_recipe_data`. -/
structure UnifiedRecipeResult where
  success : Bool
  recipe_json : Option RecipeJSON
  recipe_name : Option String
  extraction_url : String
  is_valid_recipe : Bool
  has_ingredients : Bool
  has_instructions : Bool
  follow_up_url : Option String
  extraction_depth : Nat
  error : Option String
  confidence : Rat
  reason : String
  extracted_content : Option String
  part_recipe_data : Option RecipeDataForLLM
deriving DecidableEq

/-- `SimpleExtractionResult` (unified_extraction.py lines 558-564). -/
structure SimpleExtractionResult where
  content : String
  title : String
  success : Bool
  error : Option String
deriving DecidableEq

/-! ### The effect environment -/

/-- Outcome of one run of the platform-specific extractor body inside
`_extract_content`'s `try` block (unified_extraction.py lines 575-587): either
the `(content, title)` pair, or the exception it raised, classified by the
most specific `except` clause that catches it (lines 595-654). -/
inductive ExtractOutcome where
  | ok (content title : String)
  | importError (msg : String)
  | valueError (msg : String)
  | timeout
  | httpError (status : Nat)
  | requestError (msg : String)
  | otherError (msg : String)
deriving DecidableEq

/-- Outcome of the structured-output model invocation inside
`_validate_and_format_combined`'s `try` block (lines 682-707): the parsed
`ValidateAndFormatOutput`, or the exception message if the call raised. -/
inductive OracleOutcome where
  | ok (v : ValidateAndFormatOutput)
  | failure (msg : String)
deriving DecidableEq

/-- All external effects of one top-level call: the extractor outcome per
(url, depth), the oracle outcome per (content, url, depth), and the id
generator / clock consulted when a record is assembled at a given depth. -/
structure ExtractionEnv where
  extractAttempt : String → Nat → ExtractOutcome
  judge : String → String → Nat → OracleOutcome
  genId : Nat → String
  genTime : Nat → String

/-! ### Constants (unified_extraction.py lines 25-27) -/

/-- `MAX_DEPTH_LIMIT = 1`: maximum number of follow-up links to pursue. -/
def MAX_DEPTH_LIMIT : Nat := 1

/-- `FOLLOW_UP_CONFIDENCE_THRESHOLD = 0.6` (written as the reduced rational
3/5): minimum confidence to follow a link. -/
def FOLLOW_UP_CONFIDENCE_THRESHOLD : Rat := ⟨3, 5, by norm_num, by norm_num⟩

/-! ### Platform detection (unified_extraction.py lines 34-47) -/

/-- `'instagram.com' in url.lower()`. -/
def is_instagram_url (url : String) : Bool :=
  containsSub "instagram.com" url.toLower

/-- `'youtube.com' in url.lower() or 'youtu.be' in url.lower()`. -/
def is_youtube_url (url : String) : Bool :=
  containsSub "youtube.com" url.toLower || containsSub "youtu.be" url.toLower

/-- `'tiktok.com' in url.lower()`. -/
def is_tiktok_url (url : String) : Bool :=
  containsSub "tiktok.com" url.toLower

/-! ### Extraction router (unified_extraction.py lines 567-654) -/

/-- The catch-all `except Exception` handler's message enrichment
(lines 630-647): appends remediation hints for Instagram auth errors and
TikTok blocking, detected by substring match on the error text. -/
def enhance_error (url : String) (error_msg : String) : String :=
  if is_instagram_url url &&
      (containsSub "403" error_msg || containsSub "Forbidden" error_msg ||
       containsSub "metadata failed" error_msg || containsSub "401" error_msg) then
    error_msg ++
      "\n\nInstagram extraction failed with authentication error. This tool tried:\n  1. yt-dlp extraction (primary method) - failed\n  2. instaloader with authentication (fallback) - failed\n\nSolutions:\n  • Verify the post is public and the URL is correct\n  • Set INSTAGRAM_USERNAME and INSTAGRAM_PASSWORD environment variables\n  • If on cloud/datacenter IP, consider using a residential proxy\n  • Update yt-dlp: pip install -U yt-dlp"
  else if is_tiktok_url url &&
      (containsSub "blocked" error_msg.toLower || containsSub "ip address" error_msg.toLower) then
    error_msg ++ " (TikTok is blocking this request. Content may be geo-restricted or blocked from your IP)"
  else
    error_msg

/-- `_extract_content` (lines 567-654): routes the URL to an extractor (the
extractor's run is the `ExtractOutcome` argument) and maps every exception
kind to a typed failure result.  Never raises: total by construction. -/
def extract_content (url : String) (o : ExtractOutcome) : SimpleExtractionResult :=
  match o with
  | .ok content title =>
      { content := content, title := title, success := true, error := none }
  | .importError m =>
      { content := "", title := "", success := false,
        error := some ("Missing dependency: " ++ m) }
  | .valueError m =>
      { content := "", title := "", success := false,
        error := some ("Invalid URL format: " ++ m) }
  | .timeout =>
      { content := "", title := "", success := false,
        error := some ("Request timed out while fetching " ++ url) }
  | .httpError status =>
      { content := "", title := "", success := false,
        error := some ("HTTP " ++ toString status ++ " error while fetching " ++ url) }
  | .requestError m =>
      { content := "", title := "", success := false,
        error := some ("Network error: " ++ m) }
  | .otherError m =>
      { content := "", title := "", success := false,
        error := some ("Failed to extract content: " ++ enhance_error url m) }

/-! ### Combined judgment step (unified_extraction.py lines 661-721) -/

/-- `_validate_and_format_combined`: invoke the structured-output oracle on
the (untruncated, line 688) content; if the invocation raises, degrade to the
canned invalid verdict of lines 709-721 instead of propagating. -/
def validate_and_format_combined (env : ExtractionEnv) (content url : String)
    (depth : Nat) : ValidateAndFormatOutput :=
  match env.judge content url depth with
  | .ok v => v
  | .failure msg =>
      { is_valid_recipe := false, recipe_data := none, part_recipe_data := none,
        recipe_name := none, has_ingredients := false, has_instructions := false,
        follow_up_url := none, follow_up_confidence := 0,
        reason := "Validation/formatting failed: " ++ msg, confidence := 0 }

/-! ### Failure error text (unified_extraction.py lines 820-825) -/

/-- Renders a nonnegative rational with two decimal places, rounding half up:
the model of Python's two-decimal float formatting used in the confidence
error message.  Computed on the raw numerator and denominator so it
kernel-reduces. -/
def format2f (q : Rat) : String :=
  let c : Int := Int.fdiv (q.num * 200 + (q.den : Int)) (2 * (q.den : Int))
  let n : Nat := c.toNat
  toString (n / 100) ++ "." ++ (if n % 100 < 10 then "0" else "") ++ toString (n % 100)

/-- The STEP-5 `error_msg` construction (lines 821-825).  Note the source's
`and validate_format_result.follow_up_url` uses Python truthiness, hence
`opt_truthy`; the threshold interpolates as the literal `0.6`. -/
def no_recipe_error (v : ValidateAndFormatOutput) (current_depth max_depth : Nat) : String :=
  if max_depth ≤ current_depth ∧ opt_truthy v.follow_up_url = true then
    "No valid recipe found and depth limit reached (max: " ++ toString max_depth ++ ")"
  else if opt_truthy v.follow_up_url = true ∧
      v.follow_up_confidence < FOLLOW_UP_CONFIDENCE_THRESHOLD then
    "No valid recipe found and follow-up URL confidence too low (" ++
      format2f v.follow_up_confidence ++ " < 0.6)"
  else
    "No valid recipe found"

/-! ### Recursive controller (unified_extraction.py lines 728-851) -/

/-- One level of `_extract_recursive` either terminates with a result or
recurses on a follow-up URL. -/
inductive StepOutcome where
  | done (r : UnifiedRecipeResult)
  | hop (next_url : String)
deriving DecidableEq

/-- The body of `_extract_recursive` for one `ATTEMPT(depth)` level, with the
single recursion site reified as `StepOutcome.hop`:
1. extract content (STEP 1); on failure return the fetch-failure result
   (lines 755-769);
2. judge (STEP 2);
3. on `is_valid_recipe and recipe_data` build the `RecipeJSON` (uuid, utc
   timestamp, `source_url = url` of this attempt) and the success result
   (lines 779-804);
4. if a follow-up URL exists with confidence at or above the threshold and
   depth allows, hop to it (lines 807-818);
5. otherwise the failure result of lines 820-851, carrying the extracted
   content and any incomplete structured data when the judgment saw
   ingredient or instruction evidence. -/
def extract_step (env : ExtractionEnv) (url : String)
    (current_depth max_depth : Nat) : StepOutcome :=
  let extraction_result := extract_content url (env.extractAttempt url current_depth)
  if extraction_result.success = false then
    .done { success := false, recipe_json := none, recipe_name := none,
            extraction_url := url, is_valid_recipe := false,
            has_ingredients := false, has_instructions := false,
            follow_up_url := none, extraction_depth := current_depth,
            error := extraction_result.error, confidence := 0,
            reason := "Content extraction failed",
            extracted_content := none, part_recipe_data := none }
  else
    let v := validate_and_format_combined env extraction_result.content url current_depth
    match v.is_valid_recipe, v.recipe_data with
    | true, some recipe_data =>
      .done { success := true,
              recipe_json := some
                { id := env.genId current_depth,
                  title := recipe_data.title,
                  ingredients := recipe_data.ingredients,
                  steps := recipe_data.steps,
                  tags := recipe_data.tags,
                  created_at := env.genTime current_depth,
                  servings := recipe_data.servings,
                  prep_time := recipe_data.prep_time,
                  cook_time := recipe_data.cook_time,
                  total_time := recipe_data.total_time,
                  difficulty := recipe_data.difficulty,
                  cuisine := recipe_data.cuisine,
                  source_url := some url,
                  additional_info := recipe_data.additional_info },
              recipe_name := v.recipe_name, extraction_url := url,
              is_valid_recipe := true, has_ingredients := v.has_ingredients,
              has_instructions := v.has_instructions, follow_up_url := none,
              extraction_depth := current_depth, error := none,
              confidence := v.confidence, reason := v.reason,
              extracted_content := none, part_recipe_data := none }
    | _, _ =>
      if (v.follow_up_url.isSome = true ∧
            FOLLOW_UP_CONFIDENCE_THRESHOLD ≤ v.follow_up_confidence) ∧
          current_depth < max_depth then
        .hop (v.follow_up_url.getD "")
      else
        .done { success := false, recipe_json := none,
                recipe_name := v.recipe_name, extraction_url := url,
                is_valid_recipe := false,
                has_ingredients := v.has_ingredients,
                has_instructions := v.has_instructions,
                follow_up_url := v.follow_up_url,
                extraction_depth := current_depth,
                error := some (no_recipe_error v current_depth max_depth),
                confidence := v.confidence, reason := v.reason,
                extracted_content :=
                  if v.has_ingredients || v.has_instructions then
                    some extraction_result.content
                  else none,
                part_recipe_data :=
                  if v.has_ingredients || v.has_instructions then
                    v.part_recipe_data
                  else none }

/-- `_extract_recursive` (lines 728-851): run one level; on a hop, recurse on
the follow-up URL with `current_depth + 1`. -/
def extract_recursive (env : ExtractionEnv) (url : String)
    (current_depth max_depth : Nat) : UnifiedRecipeResult :=
  match h : extract_step env url current_depth max_depth with
  | .done r => r
  | .hop next_url => extract_recursive env next_url (current_depth + 1) max_depth
termination_by max_depth - current_depth
decreasing_by
  simp only [extract_step] at h
  split at h
  · simp at h
  · split at h
    · simp at h
    · split at h
      · rename_i hcond
        have hlt := hcond.2
        omega
      · simp at h

/-- `extract_and_process_recipe` (lines 858-935): the public entry point,
starting at depth 0 with the hardcoded depth cap. -/
def extract_and_process_recipe (env : ExtractionEnv) (url : String) : UnifiedRecipeResult :=
  extract_recursive env url 0 MAX_DEPTH_LIMIT

/-! ### Retry wrapper (src/agent/utils/retry.py lines 33-110) -/

/-- What the wrapped operation does on its n-th invocation: return a value,
raise a retriable exception (`Timeout` / `ConnectionError`), or raise any
other exception. -/
inductive AttemptOutcome (α : Type) where
  | ok (v : α)
  | retriableErr (e : String)
  | fatalErr (e : String)
deriving DecidableEq

/-- How the wrapper terminates: a returned value, a re-raised exception
(tagged with whether it was retriable), or the fall-through when the loop
body never runs (`max_attempts = 0`: the Python wrapper returns `None`). -/
inductive RetryOutcome (α : Type) where
  | value (v : α)
  | raised (retriable : Bool) (e : String)
  | noAttempts
deriving DecidableEq

/-- A full run of the wrapper: its outcome, the sleep intervals performed (in
order), and the number of invocations of the wrapped operation. -/
structure RetryRun (α : Type) where
  result : RetryOutcome α
  sleeps : List Rat
  calls : Nat
deriving DecidableEq

/-- The `for attempt in range(1, max_attempts + 1)` loop of `with_retry`
(retry.py lines 71-107), entered at a given attempt number: try the
operation; on a retriable error at the final attempt re-raise, otherwise
sleep `backoff_factor * 2 ** (attempt - 1)` (line 89) and continue; on any
other error re-raise immediately. -/
def retry_go {α : Type} (op : Nat → AttemptOutcome α) (max_attempts : Nat)
    (backoff_factor : Rat) (attempt : Nat) : RetryRun α :=
  if h1 : max_attempts < attempt then
    { result := .noAttempts, sleeps := [], calls := 0 }
  else
    match op attempt with
    | .ok v => { result := .value v, sleeps := [], calls := 1 }
    | .fatalErr e => { result := .raised false e, sleeps := [], calls := 1 }
    | .retriableErr e =>
      if h2 : attempt = max_attempts then
        { result := .raised true e, sleeps := [], calls := 1 }
      else
        let wait_time := backoff_factor * 2 ^ (attempt - 1)
        let rest := retry_go op max_attempts backoff_factor (attempt + 1)
        { result := rest.result, sleeps := wait_time :: rest.sleeps,
          calls := rest.calls + 1 }
termination_by max_attempts + 1 - attempt
decreasing_by omega

/-- `with_retry(max_attempts, backoff_factor)` applied to an operation: run
the attempt loop from attempt 1. -/
def with_retry {α : Type} (max_attempts : Nat) (backoff_factor : Rat)
    (op : Nat → AttemptOutcome α) : RetryRun α :=
  retry_go op max_attempts backoff_factor 1

/-- The expected sleep sequence for `j` consecutive retriable failures
starting at attempt `a`: `backoff_factor * 2 ^ (attempt - 1)` per failure. -/
def backoff_sleeps (b : Rat) (a j : Nat) : List Rat :=
  (List.range j).map (fun i => b * 2 ^ (a - 1 + i))

/-! ### Concrete values for witnesses and counterexamples -/

/-- 0.4 as a reduced rational. -/
def conf04 : Rat := ⟨2, 5, by norm_num, by norm_num⟩

/-- 0.8 as a reduced rational. -/
def conf08 : Rat := ⟨4, 5, by norm_num, by norm_num⟩

/-- 0.9 as a reduced rational. -/
def conf09 : Rat := ⟨9, 10, by norm_num, by norm_num⟩

/-- Oracle response: verdict valid but `recipe_data` absent, with a
high-confidence follow-up URL. -/
def vfValidNoData : ValidateAndFormatOutput :=
  { is_valid_recipe := true, recipe_data := none, part_recipe_data := none,
    recipe_name := some "Lasagna", has_ingredients := true, has_instructions := true,
    follow_up_url := some "https://example.com/next",
    follow_up_confidence := conf08, reason := "claims valid without data",
    confidence := conf08 }

/-- Environment whose oracle answers with `vfValidNoData` at every level. -/
def envValidNoData : ExtractionEnv :=
  { extractAttempt := fun _ _ => .ok "caption text" "Instagram Post",
    judge := fun _ _ _ => .ok vfValidNoData,
    genId := fun _ => "550e8400-e29b-41d4-a716-446655440000",
    genTime := fun _ => "2026-01-29T10:15:00.123456Z" }

/-- Oracle response: invalid, follow-up URL present but with confidence 0.4,
below the threshold. -/
def vfLowConf : ValidateAndFormatOutput :=
  { is_valid_recipe := false, recipe_data := none, part_recipe_data := none,
    recipe_name := none, has_ingredients := false, has_instructions := false,
    follow_up_url := some "https://example.com/recipes/lasagna",
    follow_up_confidence := conf04, reason := "only a link found",
    confidence := conf04 }

/-- Environment whose oracle answers with `vfLowConf`. -/
def envLowConf : ExtractionEnv :=
  { extractAttempt := fun _ _ => .ok "caption text" "Instagram Post",
    judge := fun _ _ _ => .ok vfLowConf,
    genId := fun _ => "550e8400-e29b-41d4-a716-446655440000",
    genTime := fun _ => "2026-01-29T10:15:00.123456Z" }

/-- Incomplete structured fields salvaged from a failed validation. -/
def partData : RecipeDataForLLM :=
  { title := "Lasagna", ingredients := [{ name := "Pasta", quantity := .inl 200, unit := "g" }],
    steps := [], tags := [], servings := none, prep_time := none, cook_time := none,
    total_time := none, difficulty := none, cuisine := none, additional_info := none }

/-- Oracle response: invalid with ingredient evidence only, incomplete
structured data supplied, no follow-up URL. -/
def vfPartEvidence : ValidateAndFormatOutput :=
  { is_valid_recipe := false, recipe_data := none, part_recipe_data := some partData,
    recipe_name := some "Lasagna", has_ingredients := true, has_instructions := false,
    follow_up_url := none, follow_up_confidence := 0,
    reason := "ingredients without instructions", confidence := conf04 }

/-- Environment whose oracle answers with `vfPartEvidence`. -/
def envPartEvidence : ExtractionEnv :=
  { extractAttempt := fun _ _ => .ok "fetched page text" "Web Page",
    judge := fun _ _ _ => .ok vfPartEvidence,
    genId := fun _ => "550e8400-e29b-41d4-a716-446655440000",
    genTime := fun _ => "2026-01-29T10:15:00.123456Z" }

/-- A complete structured recipe as the oracle returns it. -/
def recipeData4 : RecipeDataForLLM :=
  { title := "Creamy Garlic Pasta",
    ingredients := [{ name := "Pasta", quantity := .inl 200, unit := "g" }],
    steps := ["Boil pasta", "Combine with sauce"], tags := ["quick"],
    servings := some 4, prep_time := none, cook_time := none, total_time := none,
    difficulty := none, cuisine := none, additional_info := none }

/-- Oracle response: a valid recipe with complete structured data. -/
def vfValid : ValidateAndFormatOutput :=
  { is_valid_recipe := true, recipe_data := some recipeData4, part_recipe_data := none,
    recipe_name := some "Creamy Garlic Pasta", has_ingredients := true,
    has_instructions := true, follow_up_url := none, follow_up_confidence := 0,
    reason := "complete recipe found", confidence := conf09 }

/-- Environment whose oracle answers with `vfValid`. -/
def envValid : ExtractionEnv :=
  { extractAttempt := fun _ _ => .ok "page text with recipe" "Recipe Page",
    judge := fun _ _ _ => .ok vfValid,
    genId := fun _ => "550e8400-e29b-41d4-a716-446655440000",
    genTime := fun _ => "2026-01-29T10:15:00.123456Z" }

/-- The record `extract_and_process_recipe` assembles under `envValid` at
depth 0 for the URL `https://example.com/recipe`. -/
def rec4 : RecipeJSON :=
  { id := "550e8400-e29b-41d4-a716-446655440000",
    title := "Creamy Garlic Pasta",
    ingredients := [{ name := "Pasta", quantity := .inl 200, unit := "g" }],
    steps := ["Boil pasta", "Combine with sauce"], tags := ["quick"],
    created_at := "2026-01-29T10:15:00.123456Z",
    servings := some 4, prep_time := none, cook_time := none, total_time := none,
    difficulty := none, cuisine := none,
    source_url := some "https://example.com/recipe", additional_info := none }

/-- The full result under `envValid` at depth 0. -/
def res4 : UnifiedRecipeResult :=
  { success := true, recipe_json := some rec4,
    recipe_name := some "Creamy Garlic Pasta",
    extraction_url := "https://example.com/recipe",
    is_valid_recipe := true, has_ingredients := true, has_instructions := true,
    follow_up_url := none, extraction_depth := 0, error := none,
    confidence := conf09, reason := "complete recipe found",
    extracted_content := none, part_recipe_data := none }

/-- Environment whose oracle call raises. -/
def envJudgeFail : ExtractionEnv :=
  { extractAttempt := fun _ _ => .ok "some content" "Web Page",
    judge := fun _ _ _ => .failure "boom",
    genId := fun _ => "550e8400-e29b-41d4-a716-446655440000",
    genTime := fun _ => "2026-01-29T10:15:00.123456Z" }

/-- Operation that fails with a retriable error exactly twice, then
succeeds. -/
def opTwiceThenOk : Nat → AttemptOutcome Nat := fun i =>
  if i = 1 then .retriableErr "timeout one"
  else if i = 2 then .retriableErr "timeout two"
  else .ok 42

/-- The failure result `extract_step` produces under `envLowConf` at depth 0
for the URL `https://a`. -/
def res8 : UnifiedRecipeResult :=
  { success := false, recipe_json := none, recipe_name := none,
    extraction_url := "https://a", is_valid_recipe := false,
    has_ingredients := false, has_instructions := false,
    follow_up_url := some "https://example.com/recipes/lasagna",
    extraction_depth := 0,
    error := some "No valid recipe found and follow-up URL confidence too low (0.40 < 0.6)",
    confidence := conf04, reason := "only a link found",
    extracted_content := none, part_recipe_data := none }

/-- The failure result `extract_step` produces under `envPartEvidence` at
depth 0 for the URL `https://a`. -/
def res9 : UnifiedRecipeResult :=
  { success := false, recipe_json := none, recipe_name := some "Lasagna",
    extraction_url := "https://a", is_valid_recipe := false,
    has_ingredients := true, has_instructions := false,
    follow_up_url := none, extraction_depth := 0,
    error := some "No valid recipe found",
    confidence := conf04, reason := "ingredients without instructions",
    extracted_content := some "fetched page text",
    part_recipe_data := some partData }

/-! ### Helper lemmas -/

theorem starts_with_append (pat l r : List Char) (h : starts_with pat l = true) :
    starts_with pat (l ++ r) = true := by
  induction pat generalizing l with
  | nil => rfl
  | cons a as ih =>
    cases l with
    | nil => simp [starts_with] at h
    | cons b bs =>
      simp only [starts_with, Bool.and_eq_true] at h
      simp only [List.cons_append, starts_with, Bool.and_eq_true]
      exact ⟨h.1, ih bs h.2⟩

theorem contains_list_nil (l : List Char) : contains_list [] l = true := by
  cases l <;> simp [contains_list, starts_with, List.isEmpty]

theorem contains_list_append_left (pat l r : List Char)
    (h : contains_list pat l = true) : contains_list pat (l ++ r) = true := by
  induction l with
  | nil =>
    simp only [contains_list, List.isEmpty_iff] at h
    subst h
    exact contains_list_nil r
  | cons c rest ih =>
    simp only [contains_list, Bool.or_eq_true] at h
    rcases h with h | h
    · simp only [List.cons_append, contains_list, Bool.or_eq_true]
      exact Or.inl (starts_with_append pat (c :: rest) r h)
    · simp only [List.cons_append, contains_list, Bool.or_eq_true]
      exact Or.inr (ih h)

theorem containsSub_append (pat a b : String) (h : containsSub pat a = true) :
    containsSub pat (a ++ b) = true := by
  simp only [containsSub, String.data_append]
  exact contains_list_append_left pat.data a.data b.data h

theorem opt_truthy_some (u : String) (h : u ≠ "") : opt_truthy (some u) = true := by
  simp only [opt_truthy, Bool.not_eq_true']
  cases hu : u.isEmpty
  · rfl
  · exact absurd ((String.isEmpty_iff u).mp hu) h

theorem extract_content_failed_error (url : String) (o : ExtractOutcome)
    (h : (extract_content url o).success = false) :
    (extract_content url o).error.isSome = true := by
  cases o <;> simp_all [extract_content]

theorem extract_step_hop_lt (env : ExtractionEnv) (url : String)
    (d m : Nat) (u : String) (h : extract_step env url d m = .hop u) : d < m := by
  simp only [extract_step] at h
  split at h
  · simp at h
  · split at h
    · simp at h
    · split at h
      · rename_i hcond
        exact hcond.2
      · simp at h

theorem extract_step_done_depth (env : ExtractionEnv) (url : String)
    (d m : Nat) (r : UnifiedRecipeResult)
    (h : extract_step env url d m = .done r) : r.extraction_depth = d := by
  simp only [extract_step] at h
  split at h
  · simp only [StepOutcome.done.injEq] at h
    subst h
    rfl
  · split at h
    · simp only [StepOutcome.done.injEq] at h
      subst h
      rfl
    · split at h
      · simp at h
      · simp only [StepOutcome.done.injEq] at h
        subst h
        rfl

theorem extract_recursive_done (env : ExtractionEnv) (url : String)
    (d m : Nat) (r : UnifiedRecipeResult)
    (h : extract_step env url d m = .done r) :
    extract_recursive env url d m = r := by
  rw [extract_recursive.eq_def]
  split
  · rename_i r' heq
    rw [h] at heq
    cases heq
    rfl
  · rename_i u heq
    rw [h] at heq
    cases heq

theorem extract_recursive_hop (env : ExtractionEnv) (url : String)
    (d m : Nat) (u : String)
    (h : extract_step env url d m = .hop u) :
    extract_recursive env url d m = extract_recursive env u (d + 1) m := by
  rw [extract_recursive.eq_def]
  split
  · rename_i r' heq
    rw [h] at heq
    cases heq
  · rename_i u' heq
    rw [h] at heq
    cases heq
    rfl

theorem extract_and_process_unfold (env : ExtractionEnv) (url : String) :
    (∃ r, extract_step env url 0 MAX_DEPTH_LIMIT = .done r ∧
       extract_and_process_recipe env url = r) ∨
    (∃ u r, extract_step env url 0 MAX_DEPTH_LIMIT = .hop u ∧
       extract_step env u 1 MAX_DEPTH_LIMIT = .done r ∧
       extract_and_process_recipe env url = r) := by
  cases h0 : extract_step env url 0 MAX_DEPTH_LIMIT with
  | done r =>
    exact Or.inl ⟨r, rfl, extract_recursive_done env url 0 MAX_DEPTH_LIMIT r h0⟩
  | hop u =>
    right
    cases h1 : extract_step env u 1 MAX_DEPTH_LIMIT with
    | done r =>
      refine ⟨u, r, rfl, h1, ?_⟩
      have he : extract_and_process_recipe env url = extract_recursive env u 1 MAX_DEPTH_LIMIT :=
        extract_recursive_hop env url 0 MAX_DEPTH_LIMIT u h0
      rw [he]
      exact extract_recursive_done env u 1 MAX_DEPTH_LIMIT r h1
    | hop u2 =>
      have := extract_step_hop_lt env u 1 MAX_DEPTH_LIMIT u2 h1
      simp [MAX_DEPTH_LIMIT] at this

theorem extract_step_done_shape (env : ExtractionEnv) (url : String)
    (d m : Nat) (r : UnifiedRecipeResult)
    (h : extract_step env url d m = .done r) :
    (r.success = true ∧ r.recipe_json.isSome = true ∧ r.error = none) ∨
    (r.success = false ∧ r.error.isSome = true ∧ r.recipe_json = none) := by
  simp only [extract_step] at h
  split at h
  · rename_i hfail
    simp only [StepOutcome.done.injEq] at h
    subst h
    exact Or.inr ⟨rfl, extract_content_failed_error url _ hfail, rfl⟩
  · split at h
    · simp only [StepOutcome.done.injEq] at h
      subst h
      exact Or.inl ⟨rfl, rfl, rfl⟩
    · split at h
      · simp at h
      · simp only [StepOutcome.done.injEq] at h
        subst h
        exact Or.inr ⟨rfl, rfl, rfl⟩

theorem extract_step_done_success (env : ExtractionEnv) (url : String)
    (d m : Nat) (r : UnifiedRecipeResult)
    (h : extract_step env url d m = .done r) (hs : r.success = true) :
    ∃ rec, r.recipe_json = some rec ∧ rec.id = env.genId d ∧
      rec.created_at = env.genTime d ∧ rec.source_url = some url ∧
      r.extraction_url = url ∧ r.extraction_depth = d := by
  simp only [extract_step] at h
  split at h
  · simp only [StepOutcome.done.injEq] at h
    subst h
    simp at hs
  · split at h
    · simp only [StepOutcome.done.injEq] at h
      subst h
      exact ⟨_, rfl, rfl, rfl, rfl, rfl, rfl⟩
    · split at h
      · simp at h
      · simp only [StepOutcome.done.injEq] at h
        subst h
        simp at hs

/-- C1: for every input URL and every sequence of oracle responses, the
`extraction_depth` of the `UnifiedResult` returned by
`extract_and_process_recipe` is 0 or 1, never higher: the recursion is
bounded by the hardcoded single-hop depth cap `MAX_DEPTH_LIMIT = 1`. -/
theorem extraction_depth_bounded (env : ExtractionEnv) (url : String) :
    (extract_and_process_recipe env url).extraction_depth = 0 ∨
    (extract_and_process_recipe env url).extraction_depth = 1 := by
  rcases extract_and_process_unfold env url with ⟨r, hst, heq⟩ | ⟨u, r, h0, h1, heq⟩
  · left
    rw [heq]
    exact extract_step_done_depth env url 0 MAX_DEPTH_LIMIT r hst
  · right
    rw [heq]
    exact extract_step_done_depth env u 1 MAX_DEPTH_LIMIT r h1

/-- C3: every `UnifiedRecipeResult` returned by `extract_and_process_recipe`
satisfies exactly one of: `success = true` with a recipe record and no error,
or `success = false` with an error text and no recipe record. -/
theorem result_success_error_dichotomy (env : ExtractionEnv) (url : String) :
    Xor'
      ((extract_and_process_recipe env url).success = true ∧
       (extract_and_process_recipe env url).recipe_json.isSome = true ∧
       (extract_and_process_recipe env url).error = none)
      ((extract_and_process_recipe env url).success = false ∧
       (extract_and_process_recipe env url).error.isSome = true ∧
       (extract_and_process_recipe env url).recipe_json = none) := by
  have hshape :
      ((extract_and_process_recipe env url).success = true ∧
       (extract_and_process_recipe env url).recipe_json.isSome = true ∧
       (extract_and_process_recipe env url).error = none) ∨
      ((extract_and_process_recipe env url).success = false ∧
       (extract_and_process_recipe env url).error.isSome = true ∧
       (extract_and_process_recipe env url).recipe_json = none) := by
    rcases extract_and_process_unfold env url with ⟨r, hst, heq⟩ | ⟨u, r, h0, h1, heq⟩
    · rw [heq]
      exact extract_step_done_shape env url 0 MAX_DEPTH_LIMIT r hst
    · rw [heq]
      exact extract_step_done_shape env u 1 MAX_DEPTH_LIMIT r h1
  rcases hshape with ⟨a, b, c⟩ | ⟨a, b, c⟩
  · exact Or.inl ⟨⟨a, b, c⟩, fun hc => by rw [a] at hc; simp at hc⟩
  · exact Or.inr ⟨⟨a, b, c⟩, fun hc => by rw [a] at hc; simp at hc⟩

/-- C4: whenever the pipeline succeeds (the oracle returned
`is_valid_recipe = true` with recipe data and a record was assembled), the
persisted record has a non-empty `id`, a well-formed creation timestamp, and
`source_url` equal to the URL of the attempt that produced the valid
judgment — the follow-up URL when a hop occurred, not the original URL.  The
hypotheses on `genId` / `genTime` state the standard-library guarantees for
`uuid.uuid4()` and `datetime.utcnow().isoformat() + "Z"`, which live outside
the repository. -/
theorem valid_recipe_record_fields (env : ExtractionEnv) (url : String)
    (hid : ∀ d, env.genId d ≠ "")
    (hts : ∀ d, well_formed_iso (env.genTime d) = true)
    (hs : (extract_and_process_recipe env url).success = true) :
    ∃ rec, (extract_and_process_recipe env url).recipe_json = some rec ∧
      rec.id ≠ "" ∧ well_formed_iso rec.created_at = true ∧
      rec.source_url = some (extract_and_process_recipe env url).extraction_url ∧
      (((extract_and_process_recipe env url).extraction_depth = 0 ∧
          (extract_and_process_recipe env url).extraction_url = url) ∨
       (∃ u, extract_step env url 0 MAX_DEPTH_LIMIT = .hop u ∧
          (extract_and_process_recipe env url).extraction_depth = 1 ∧
          (extract_and_process_recipe env url).extraction_url = u)) := by
  rcases extract_and_process_unfold env url with ⟨r, hst, heq⟩ | ⟨u, r, h0, h1, heq⟩
  · rw [heq] at hs ⊢
    obtain ⟨rec, hjson, hidr, htsr, hsrc, hurl, hdep⟩ :=
      extract_step_done_success env url 0 MAX_DEPTH_LIMIT r hst hs
    refine ⟨rec, hjson, ?_, ?_, ?_, Or.inl ⟨hdep, hurl⟩⟩
    · rw [hidr]
      exact hid 0
    · rw [htsr]
      exact hts 0
    · rw [hsrc, hurl]
  · rw [heq] at hs ⊢
    obtain ⟨rec, hjson, hidr, htsr, hsrc, hurl, hdep⟩ :=
      extract_step_done_success env u 1 MAX_DEPTH_LIMIT r h1 hs
    refine ⟨rec, hjson, ?_, ?_, ?_, Or.inr ⟨u, h0, hdep, hurl⟩⟩
    · rw [hidr]
      exact hid 1
    · rw [htsr]
      exact hts 1
    · rw [hsrc, hurl]

/-- C4 witness: a concrete environment whose oracle validates a recipe at
depth 0; the assembled record has the asserted identity, timestamp and
source-URL properties. -/
theorem valid_recipe_record_fields_witness :
    (extract_and_process_recipe envValid "https://example.com/recipe").success = true ∧
    (extract_and_process_recipe envValid "https://example.com/recipe").recipe_json = some rec4 ∧
    rec4.id ≠ "" ∧ well_formed_iso rec4.created_at = true ∧
    rec4.source_url =
      some (extract_and_process_recipe envValid "https://example.com/recipe").extraction_url := by
  have hstep : extract_step envValid "https://example.com/recipe" 0 MAX_DEPTH_LIMIT =
      .done res4 := by decide
  have hres : extract_and_process_recipe envValid "https://example.com/recipe" = res4 :=
    extract_recursive_done envValid "https://example.com/recipe" 0 MAX_DEPTH_LIMIT res4 hstep
  have hs : (extract_and_process_recipe envValid "https://example.com/recipe").success = true := by
    rw [hres]
    rfl
  obtain ⟨rec, hjson, hidr, htsr, hsrc, _⟩ :=
    valid_recipe_record_fields envValid "https://example.com/recipe"
      (fun d => by
        have hg : envValid.genId d = "550e8400-e29b-41d4-a716-446655440000" := rfl
        rw [hg]
        decide)
      (fun d => by
        have hg : envValid.genTime d = "2026-01-29T10:15:00.123456Z" := rfl
        rw [hg]
        decide)
      hs
  rw [hres] at hjson
  have hr : some rec4 = some rec := by
    rw [← hjson]
    rfl
  cases hr
  exact ⟨hs, by rw [hres]; rfl, hidr, htsr, hsrc⟩

/-- C2 counterexample: the gating is not "if and only if
`is_valid_recipe = false` ...".  Under `envValidNoData` the oracle's judgment
at depth 0 has `is_valid_recipe = true` (with `recipe_data = None`), yet the
controller takes the follow-up hop, because the source guards the success
branch with `is_valid_recipe and recipe_data` and the hop check does not
re-test the verdict (unified_extraction.py lines 779, 807-818). -/
theorem follow_up_gating_counterexample :
    extract_step envValidNoData "https://a" 0 MAX_DEPTH_LIMIT =
      .hop "https://example.com/next" ∧
    (validate_and_format_combined envValidNoData "caption text" "https://a" 0).is_valid_recipe
      = true := by
  constructor
  · decide
  · decide

/-- C2 amended: given that the fetch of the current attempt succeeded, a
follow-up hop occurs if and only if the judgment is NOT (valid with recipe
data present), its `follow_up_url` is non-null, its `follow_up_confidence` is
at least the 0.6 threshold, and the current depth is strictly below the cap;
the hop target is exactly the proposed follow-up URL.  (The original claim's
condition `is_valid_recipe = false` is weakened to "not valid-with-data",
which is what the code tests.) -/
theorem follow_up_gating_amended (env : ExtractionEnv) (url c t : String)
    (d : Nat) (v : ValidateAndFormatOutput)
    (hfetch : env.extractAttempt url d = .ok c t)
    (hv : validate_and_format_combined env c url d = v) :
    (∀ u, extract_step env url d MAX_DEPTH_LIMIT = .hop u →
        ¬(v.is_valid_recipe = true ∧ v.recipe_data.isSome = true) ∧
        v.follow_up_url = some u ∧
        FOLLOW_UP_CONFIDENCE_THRESHOLD ≤ v.follow_up_confidence ∧
        d < MAX_DEPTH_LIMIT) ∧
    (∀ u, v.follow_up_url = some u →
        ¬(v.is_valid_recipe = true ∧ v.recipe_data.isSome = true) →
        FOLLOW_UP_CONFIDENCE_THRESHOLD ≤ v.follow_up_confidence →
        d < MAX_DEPTH_LIMIT →
        extract_step env url d MAX_DEPTH_LIMIT = .hop u) := by
  constructor
  · intro u h
    simp only [extract_step, hfetch, extract_content, hv] at h
    simp only [Bool.true_eq_false, if_false] at h
    cases hb : v.is_valid_recipe <;> cases hd : v.recipe_data <;>
        simp only [hb, hd] at h
    · split at h
      case isTrue hcond =>
        obtain ⟨⟨hsome, hconf⟩, hdlt⟩ := hcond
        obtain ⟨w, hw⟩ := Option.isSome_iff_exists.mp hsome
        rw [hw] at h
        simp only [Option.getD_some, StepOutcome.hop.injEq] at h
        subst h
        exact ⟨by simp, hw, hconf, hdlt⟩
      case isFalse hcond => simp at h
    · split at h
      case isTrue hcond =>
        obtain ⟨⟨hsome, hconf⟩, hdlt⟩ := hcond
        obtain ⟨w, hw⟩ := Option.isSome_iff_exists.mp hsome
        rw [hw] at h
        simp only [Option.getD_some, StepOutcome.hop.injEq] at h
        subst h
        exact ⟨by simp, hw, hconf, hdlt⟩
      case isFalse hcond => simp at h
    · split at h
      case isTrue hcond =>
        obtain ⟨⟨hsome, hconf⟩, hdlt⟩ := hcond
        obtain ⟨w, hw⟩ := Option.isSome_iff_exists.mp hsome
        rw [hw] at h
        simp only [Option.getD_some, StepOutcome.hop.injEq] at h
        subst h
        exact ⟨by simp, hw, hconf, hdlt⟩
      case isFalse hcond => simp at h
    · simp at h
  · intro u hu hnv hconf hd
    simp only [extract_step, hfetch, extract_content, hv]
    simp only [Bool.true_eq_false, if_false]
    cases hb : v.is_valid_recipe <;> cases hrd : v.recipe_data <;>
        simp only [hb, hrd]
    · rw [if_pos ⟨⟨by rw [hu]; rfl, hconf⟩, hd⟩, hu]
      rfl
    · rw [if_pos ⟨⟨by rw [hu]; rfl, hconf⟩, hd⟩, hu]
      rfl
    · rw [if_pos ⟨⟨by rw [hu]; rfl, hconf⟩, hd⟩, hu]
      rfl
    · exact absurd ⟨hb, by rw [hrd]; rfl⟩ hnv

/-- C2 witness for the amended gating: a concrete environment in which every
condition holds and the hop is taken to the proposed URL. -/
theorem follow_up_gating_amended_witness :
    extract_step envValidNoData "https://b" 0 MAX_DEPTH_LIMIT =
      .hop "https://example.com/next" := by
  have h := follow_up_gating_amended envValidNoData "https://b" "caption text"
    "Instagram Post" 0 vfValidNoData rfl rfl
  exact h.2 "https://example.com/next" rfl (by decide) (by decide) (by decide)

/-- C6: the judgment step never lets a failure of the oracle call escape.
`validate_and_format_combined` is total, and whenever the underlying
structured-output invocation raises it returns the canned response:
`is_valid_recipe = false`, confidence 0, `follow_up_confidence` 0, no recipe
data, and the failure reason embedded in the `reason` text
(unified_extraction.py lines 709-721). -/
theorem judgment_failure_degrades (env : ExtractionEnv) (c url : String)
    (d : Nat) (msg : String) (h : env.judge c url d = .failure msg) :
    validate_and_format_combined env c url d =
      { is_valid_recipe := false, recipe_data := none, part_recipe_data := none,
        recipe_name := none, has_ingredients := false, has_instructions := false,
        follow_up_url := none, follow_up_confidence := 0,
        reason := "Validation/formatting failed: " ++ msg, confidence := 0 } := by
  simp only [validate_and_format_combined, h]

/-- C6 witness: a concrete environment whose oracle call raises with message
"boom". -/
theorem judgment_failure_degrades_witness :
    validate_and_format_combined envJudgeFail "some content" "https://a" 0 =
      { is_valid_recipe := false, recipe_data := none, part_recipe_data := none,
        recipe_name := none, has_ingredients := false, has_instructions := false,
        follow_up_url := none, follow_up_confidence := 0,
        reason := "Validation/formatting failed: boom", confidence := 0 } := by
  have h := judgment_failure_degrades envJudgeFail "some content" "https://a" 0 "boom" rfl
  exact h

/-- C7: the extraction router `extract_content` never raises (it is a total
function): it always returns a result with the success flag set, success is
false exactly when the error field is populated, and each exception kind maps
to its typed error text; for the catch-all case the original message is
preserved as a prefix of the enriched text. -/
theorem extract_content_error_mapping (url : String) (o : ExtractOutcome) :
    ((extract_content url o).success = false ↔
      (extract_content url o).error.isSome = true) ∧
    (match o with
     | .ok c t =>
        extract_content url o =
          { content := c, title := t, success := true, error := none }
     | .importError m =>
        (extract_content url o).error = some ("Missing dependency: " ++ m)
     | .valueError m =>
        (extract_content url o).error = some ("Invalid URL format: " ++ m)
     | .timeout =>
        (extract_content url o).error =
          some ("Request timed out while fetching " ++ url)
     | .httpError status =>
        (extract_content url o).error =
          some ("HTTP " ++ toString status ++ " error while fetching " ++ url)
     | .requestError m =>
        (extract_content url o).error = some ("Network error: " ++ m)
     | .otherError m =>
        ∃ extra, (extract_content url o).error =
          some ("Failed to extract content: " ++ (m ++ extra))) := by
  cases o <;> simp only [extract_content]
  case ok c t => simp
  case importError m => simp
  case valueError m => simp
  case timeout => simp
  case httpError status => simp
  case requestError m => simp
  case otherError m =>
    refine ⟨by simp, ?_⟩
    unfold enhance_error
    split
    · exact ⟨_, rfl⟩
    · split
      · exact ⟨_, rfl⟩
      · exact ⟨"", by simp⟩

/-- C8: when the controller ends in a failure result after a judgment (fetch
succeeded, no record assembled, no hop taken), the error text distinguishes
the three causes: depth exhausted while a follow-up existed, follow-up
confidence below the 0.6 threshold, or no follow-up at all; and
`follow_up_url` stays populated in the result for caller inspection.  The
confidence message contains "confidence too low". -/
theorem failure_error_text_distinguishes (env : ExtractionEnv) (url c t : String)
    (d m : Nat) (v : ValidateAndFormatOutput)
    (hfetch : env.extractAttempt url d = .ok c t)
    (hv : validate_and_format_combined env c url d = v)
    (hnv : ¬(v.is_valid_recipe = true ∧ v.recipe_data.isSome = true))
    (hnohop : ¬((v.follow_up_url.isSome = true ∧
        FOLLOW_UP_CONFIDENCE_THRESHOLD ≤ v.follow_up_confidence) ∧ d < m)) :
    ∃ r, extract_step env url d m = .done r ∧ r.success = false ∧
      r.follow_up_url = v.follow_up_url ∧ r.error.isSome = true ∧
      (∀ u, v.follow_up_url = some u → u ≠ "" → m ≤ d →
        r.error = some ("No valid recipe found and depth limit reached (max: " ++
          toString m ++ ")")) ∧
      (∀ u, v.follow_up_url = some u → u ≠ "" → d < m →
          v.follow_up_confidence < FOLLOW_UP_CONFIDENCE_THRESHOLD →
        r.error = some ("No valid recipe found and follow-up URL confidence too low (" ++
          format2f v.follow_up_confidence ++ " < 0.6)") ∧
        containsSub "confidence too low"
          ("No valid recipe found and follow-up URL confidence too low (" ++
            format2f v.follow_up_confidence ++ " < 0.6)") = true) ∧
      (v.follow_up_url = none → r.error = some "No valid recipe found") := by
  simp only [extract_step, hfetch, extract_content, hv]
  simp only [Bool.true_eq_false, if_false]
  cases hb : v.is_valid_recipe <;> cases hd : v.recipe_data <;> simp only [hb, hd]
  case true.some => exact absurd ⟨hb, by rw [hd]; rfl⟩ hnv
  all_goals
    rw [if_neg hnohop]
    refine ⟨_, rfl, rfl, rfl, rfl, ?_, ?_, ?_⟩
    case _ =>
      intro u hu hne hdm
      simp only [Option.some.injEq]
      unfold no_recipe_error
      rw [if_pos ⟨hdm, by rw [hu]; exact opt_truthy_some u hne⟩]
    case _ =>
      intro u hu hne hdm hconf
      constructor
      · simp only [Option.some.injEq]
        unfold no_recipe_error
        rw [if_neg (fun hc => absurd hc.1 (by omega))]
        rw [if_pos ⟨by rw [hu]; exact opt_truthy_some u hne, hconf⟩]
      · have h1 : containsSub "confidence too low"
            "No valid recipe found and follow-up URL confidence too low (" = true := by
          decide
        exact containsSub_append _ _ _ (containsSub_append _ _ _ h1)
    case _ =>
      intro hnone
      simp only [Option.some.injEq]
      unfold no_recipe_error
      rw [hnone]
      rw [if_neg (fun hc => by simp [opt_truthy] at hc)]
      rw [if_neg (fun hc => by simp [opt_truthy] at hc)]

/-- C8 witness: at depth 0 with `follow_up_confidence = 0.4`, no recursion
occurs, `success = false`, the error contains "confidence too low" (rendered
"0.40 < 0.6"), and `follow_up_url` remains populated. -/
theorem failure_error_text_distinguishes_witness :
    extract_step envLowConf "https://a" 0 MAX_DEPTH_LIMIT = .done res8 ∧
    res8.success = false ∧
    res8.follow_up_url = some "https://example.com/recipes/lasagna" ∧
    res8.error = some ("No valid recipe found and follow-up URL confidence too low (" ++
      format2f vfLowConf.follow_up_confidence ++ " < 0.6)") ∧
    format2f vfLowConf.follow_up_confidence = "0.40" ∧
    containsSub "confidence too low"
      ("No valid recipe found and follow-up URL confidence too low (" ++
        format2f vfLowConf.follow_up_confidence ++ " < 0.6)") = true := by
  obtain ⟨r, hstep, hsucc, hfu, herr, hdep, hconf, hnone⟩ :=
    failure_error_text_distinguishes envLowConf "https://a" "caption text"
      "Instagram Post" 0 MAX_DEPTH_LIMIT vfLowConf rfl rfl
      (by decide) (by decide)
  have hres : extract_step envLowConf "https://a" 0 MAX_DEPTH_LIMIT = .done res8 := by
    decide
  rw [hres] at hstep
  have hr : res8 = r := by
    cases hstep
    rfl
  obtain ⟨herr2, hcontains⟩ :=
    hconf "https://example.com/recipes/lasagna" rfl (by decide) (by decide) (by decide)
  subst hr
  exact ⟨hres, hsucc, rfl, herr2, by decide, hcontains⟩

/-- C9: on a depth-0 failure where the judgment is invalid and proposes no
follow-up URL, the result has `success = false`; its `extracted_content`
equals the originally fetched text of that attempt and `part_recipe_data`
equals whatever incomplete structured fields the oracle supplied exactly when
the oracle reported ingredient or instruction evidence; when it reported
neither, both fields stay null (unified_extraction.py lines 827-851). -/
theorem part_evidence_failure_fields (env : ExtractionEnv) (url c t : String)
    (v : ValidateAndFormatOutput)
    (hfetch : env.extractAttempt url 0 = .ok c t)
    (hv : validate_and_format_combined env c url 0 = v)
    (hvalid : v.is_valid_recipe = false)
    (hfu : v.follow_up_url = none) :
    ∃ r, extract_step env url 0 MAX_DEPTH_LIMIT = .done r ∧ r.success = false ∧
      (v.has_ingredients = true ∨ v.has_instructions = true →
        r.extracted_content = some c ∧ r.part_recipe_data = v.part_recipe_data) ∧
      (v.has_ingredients = false ∧ v.has_instructions = false →
        r.extracted_content = none ∧ r.part_recipe_data = none) := by
  simp only [extract_step, hfetch, extract_content, hv]
  simp only [Bool.true_eq_false, if_false]
  cases hd : v.recipe_data <;> simp only [hvalid, hd]
  all_goals
    rw [if_neg (fun hc => by rw [hfu] at hc; simp at hc)]
    refine ⟨_, rfl, rfl, ?_, ?_⟩
    case _ =>
      intro hevi
      have hcond : (v.has_ingredients || v.has_instructions) = true := by
        rcases hevi with h | h <;> simp [h]
      simp [hcond]
    case _ =>
      intro hno
      simp [hno.1, hno.2]

/-- C9 witness: the oracle reports `has_ingredients = true,
has_instructions = false`, supplies incomplete structured data, and proposes
no follow-up: the failure result carries the fetched text and that data. -/
theorem part_evidence_failure_fields_witness :
    extract_step envPartEvidence "https://a" 0 MAX_DEPTH_LIMIT = .done res9 ∧
    res9.success = false ∧
    res9.extracted_content = some "fetched page text" ∧
    res9.part_recipe_data = some partData := by
  obtain ⟨r, hstep, hsucc, hpos, hneg⟩ :=
    part_evidence_failure_fields envPartEvidence "https://a" "fetched page text"
      "Web Page" vfPartEvidence rfl rfl (by decide) (by decide)
  have hres : extract_step envPartEvidence "https://a" 0 MAX_DEPTH_LIMIT = .done res9 := by
    decide
  rw [hres] at hstep
  have hr : res9 = r := by
    cases hstep
    rfl
  obtain ⟨hcontent, hpart⟩ := hpos (Or.inl (by decide))
  subst hr
  exact ⟨hres, hsucc, hcontent, hpart⟩

/-- C10: if the oracle returns `is_valid_recipe = true` but
`recipe_data = None`, the controller does not assemble a record: the attempt
falls into the failure/follow-up path, so any terminal result of this attempt
has `success = false` and reports `is_valid_recipe = false` with no record —
and a follow-up hop is taken despite the valid verdict whenever the follow-up
conditions hold. -/
theorem valid_without_data_falls_through (env : ExtractionEnv) (url c t : String)
    (d m : Nat) (v : ValidateAndFormatOutput)
    (hfetch : env.extractAttempt url d = .ok c t)
    (hv : validate_and_format_combined env c url d = v)
    (hvalid : v.is_valid_recipe = true)
    (hdata : v.recipe_data = none) :
    (∀ r, extract_step env url d m = .done r →
      r.success = false ∧ r.is_valid_recipe = false ∧ r.recipe_json = none) ∧
    (∀ u, v.follow_up_url = some u →
      FOLLOW_UP_CONFIDENCE_THRESHOLD ≤ v.follow_up_confidence → d < m →
      extract_step env url d m = .hop u) := by
  constructor
  · intro r h
    simp only [extract_step, hfetch, extract_content, hv] at h
    simp only [Bool.true_eq_false, if_false] at h
    simp only [hvalid, hdata] at h
    split at h
    · simp at h
    · simp only [StepOutcome.done.injEq] at h
      subst h
      exact ⟨rfl, rfl, rfl⟩
  · intro u hu hconf hd
    simp only [extract_step, hfetch, extract_content, hv]
    simp only [Bool.true_eq_false, if_false]
    simp only [hvalid, hdata]
    rw [if_pos ⟨⟨by rw [hu]; rfl, hconf⟩, hd⟩, hu]
    rfl

/-- C10 witness: a concrete environment with a valid verdict, no recipe data
and a high-confidence follow-up, where the hop is taken. -/
theorem valid_without_data_falls_through_witness :
    extract_step envValidNoData "https://c" 0 MAX_DEPTH_LIMIT =
      .hop "https://example.com/next" := by
  have h := valid_without_data_falls_through envValidNoData "https://c" "caption text"
    "Instagram Post" 0 MAX_DEPTH_LIMIT vfValidNoData rfl rfl rfl rfl
  exact h.2 "https://example.com/next" rfl (by decide) (by decide)

theorem backoff_sleeps_succ (b : Rat) (a j : Nat) (ha : 1 ≤ a) :
    backoff_sleeps b a (j + 1) = b * 2 ^ (a - 1) :: backoff_sleeps b (a + 1) j := by
  unfold backoff_sleeps
  rw [List.range_succ_eq_map, List.map_cons, List.map_map]
  have hfun : ((fun i => b * 2 ^ (a - 1 + i)) ∘ Nat.succ) =
      (fun i => b * 2 ^ (a + 1 - 1 + i)) := by
    funext i
    have hexp : a - 1 + (i + 1) = a + 1 - 1 + i := by omega
    simp only [Function.comp, Nat.succ_eq_add_one, hexp]
  rw [hfun]
  norm_num

theorem retry_go_ok_chain {α : Type} (op : Nat → AttemptOutcome α) (m : Nat) (b : Rat) :
    ∀ j a v, 1 ≤ a → a + j ≤ m →
      (∀ i, a ≤ i → i < a + j → ∃ e, op i = .retriableErr e) →
      op (a + j) = .ok v →
      retry_go op m b a =
        { result := .value v, sleeps := backoff_sleeps b a j, calls := j + 1 } := by
  intro j
  induction j with
  | zero =>
    intro a v ha ham hfail hok
    rw [Nat.add_zero] at hok
    rw [retry_go.eq_def, dif_neg (by omega : ¬ m < a)]
    simp only [hok]
    simp [backoff_sleeps]
  | succ j ih =>
    intro a v ha ham hfail hok
    obtain ⟨e, he⟩ := hfail a (Nat.le_refl a) (by omega)
    have hok2 : op (a + 1 + j) = .ok v := by
      have hrw : a + 1 + j = a + (j + 1) := by omega
      rw [hrw]
      exact hok
    have hrec := ih (a + 1) v (by omega) (by omega)
      (fun i h1 h2 => hfail i (by omega) (by omega)) hok2
    rw [retry_go.eq_def, dif_neg (by omega : ¬ m < a)]
    simp only [he]
    rw [dif_neg (by omega : ¬ a = m)]
    simp only [hrec]
    rw [backoff_sleeps_succ b a j ha]

theorem retry_go_fail_chain {α : Type} (op : Nat → AttemptOutcome α) (m : Nat) (b : Rat) :
    ∀ j a, 1 ≤ a → a + j = m →
      (∀ i, a ≤ i → i ≤ m → ∃ e, op i = .retriableErr e) →
      ∃ e, op m = .retriableErr e ∧
        retry_go op m b a =
          { result := .raised true e, sleeps := backoff_sleeps b a j, calls := j + 1 } := by
  intro j
  induction j with
  | zero =>
    intro a ha ham hfail
    have haem : a = m := by omega
    subst haem
    obtain ⟨e, he⟩ := hfail a (Nat.le_refl a) (by omega)
    refine ⟨e, he, ?_⟩
    rw [retry_go.eq_def, dif_neg (by omega : ¬ a < a)]
    simp only [he]
    simp [backoff_sleeps]
  | succ j ih =>
    intro a ha ham hfail
    obtain ⟨e, he⟩ := hfail a (Nat.le_refl a) (by omega)
    obtain ⟨e2, he2, hrec⟩ := ih (a + 1) (by omega) (by omega)
      (fun i h1 h2 => hfail i (by omega) h2)
    refine ⟨e2, he2, ?_⟩
    rw [retry_go.eq_def, dif_neg (by omega : ¬ m < a)]
    simp only [he]
    rw [dif_neg (by omega : ¬ a = m)]
    simp only [hrec]
    rw [backoff_sleeps_succ b a j ha]

theorem retry_go_calls_le {α : Type} (op : Nat → AttemptOutcome α) (m : Nat) (b : Rat) :
    ∀ k a, m + 1 - a ≤ k → (retry_go op m b a).calls ≤ m + 1 - a := by
  intro k
  induction k with
  | zero =>
    intro a hk
    rw [retry_go.eq_def, dif_pos (by omega : m < a)]
    exact Nat.zero_le _
  | succ k ih =>
    intro a hk
    rw [retry_go.eq_def]
    split
    · exact Nat.zero_le _
    · rename_i h1
      split
      · show 1 ≤ m + 1 - a
        omega
      · show 1 ≤ m + 1 - a
        omega
      · split
        · show 1 ≤ m + 1 - a
          omega
        · rename_i h2
          have := ih (a + 1) (by omega)
          show (retry_go op m b (a + 1)).calls + 1 ≤ m + 1 - a
          omega

/-- C5: `with_retry(max_attempts, backoff_factor)` makes at most
`max_attempts` invocations of the operation; if the first `j` attempts fail
with retriable errors and attempt `j + 1` (within the budget) succeeds, it
returns the operation's value having slept exactly
`backoff_factor * 2 ^ (attempt - 1)` after each failed attempt; if every
attempt fails with a retriable error it re-raises the last exception; and in
particular, for an operation that fails exactly twice with a retriable error
then succeeds, `with_retry` with `max_attempts = 3` returns the success value
and sleeps exactly twice, with the second sleep interval double the first. -/
theorem with_retry_correct {α : Type} (m : Nat) (b : Rat)
    (op : Nat → AttemptOutcome α) :
    ((with_retry m b op).calls ≤ m) ∧
    (∀ j v, j < m →
      (∀ i, 1 ≤ i → i ≤ j → ∃ e, op i = .retriableErr e) →
      op (j + 1) = .ok v →
      with_retry m b op =
        { result := .value v, sleeps := backoff_sleeps b 1 j, calls := j + 1 }) ∧
    (1 ≤ m →
      (∀ i, 1 ≤ i → i ≤ m → ∃ e, op i = .retriableErr e) →
      ∃ e, op m = .retriableErr e ∧
        with_retry m b op =
          { result := .raised true e, sleeps := backoff_sleeps b 1 (m - 1), calls := m }) ∧
    (∀ e1 e2 v, m = 3 →
      op 1 = .retriableErr e1 → op 2 = .retriableErr e2 → op 3 = .ok v →
      with_retry m b op =
        { result := .value v, sleeps := [b * 2 ^ 0, b * 2 ^ 1], calls := 3 } ∧
      b * 2 ^ 1 = 2 * (b * 2 ^ 0)) := by
  refine ⟨?_, ?_, ?_, ?_⟩
  · show (retry_go op m b 1).calls ≤ m
    have h := retry_go_calls_le op m b m 1 (by omega)
    omega
  · intro j v hj hfail hok
    have hok2 : op (1 + j) = .ok v := by
      have hrw : 1 + j = j + 1 := by omega
      rw [hrw]
      exact hok
    exact retry_go_ok_chain op m b j 1 v (Nat.le_refl 1) (by omega)
      (fun i h1 h2 => hfail i h1 (by omega)) hok2
  · intro hm hfail
    obtain ⟨e, he, heq⟩ :=
      retry_go_fail_chain op m b (m - 1) 1 (Nat.le_refl 1) (by omega) hfail
    refine ⟨e, he, ?_⟩
    have hmm : m - 1 + 1 = m := by omega
    rw [hmm] at heq
    exact heq
  · intro e1 e2 v hm h1 h2 h3
    subst hm
    constructor
    · have hchain := retry_go_ok_chain op 3 b 2 1 v (Nat.le_refl 1) (by omega)
        (fun i hi1 hi2 => by
          have hi : i = 1 ∨ i = 2 := by omega
          rcases hi with rfl | rfl
          · exact ⟨e1, h1⟩
          · exact ⟨e2, h2⟩)
        h3
      have hb2 : backoff_sleeps b 1 2 = [b * 2 ^ 0, b * 2 ^ 1] := rfl
      show retry_go op 3 b 1 =
        { result := .value v, sleeps := [b * 2 ^ 0, b * 2 ^ 1], calls := 3 }
      rw [hchain, hb2]
    · ring

/-- C5 witness: the retry-determinism scenario with `backoff_factor = 1`: two
retriable failures then success, so the value is returned after exactly two
sleeps, the second double the first. -/
theorem with_retry_correct_witness :
    with_retry 3 1 opTwiceThenOk =
      { result := .value 42, sleeps := [1 * 2 ^ 0, 1 * 2 ^ 1], calls := 3 } ∧
    (1 : Rat) * 2 ^ 1 = 2 * (1 * 2 ^ 0) := by
  exact (with_retry_correct 3 1 opTwiceThenOk).2.2.2 "timeout one" "timeout two" 42
    rfl rfl rfl rfl
